import Mathlib

/-!
Verification of the register-file module of a GameBoy emulator
(src/register.rs). The Rust code is shallowly embedded: u8 cells are Nat
values kept below 256, u16 cells are Nat values kept below 65536, and the
u8 casts of the source are written as explicit % 256.
-/

set_option linter.unusedVariables false

namespace Gameboy

/-- Modelled from the spec: the hardware-variant selector type Term is declared
in src/convention.rs, which is not among the reviewed sources. The spec calls it
a closed enumeration of exactly four variants, and the exhaustive match in
Register.power_up fixes the four tags as GB, GBP, GBC, SGB. -/
inductive Term where
  | GB
  | GBP
  | GBC
  | SGB

/-- The register file: eight 8-bit cells a f b c d e h l and two 16-bit cells
sp pc, as in the Rust struct Register. -/
structure Register where
  a : Nat
  f : Nat
  b : Nat
  c : Nat
  d : Nat
  e : Nat
  h : Nat
  l : Nat
  sp : Nat
  pc : Nat

/-- Rust derive(Default) for Register: every cell is zero. -/
def Register.default : Register :=
  { a := 0, f := 0, b := 0, c := 0, d := 0, e := 0, h := 0, l := 0, sp := 0, pc := 0 }

def Register.get_af (r : Register) : Nat :=
  (r.a <<< 8) ||| r.f

def Register.get_bc (r : Register) : Nat :=
  (r.b <<< 8) ||| r.c

def Register.get_de (r : Register) : Nat :=
  (r.d <<< 8) ||| r.e

def Register.get_hl (r : Register) : Nat :=
  (r.h <<< 8) ||| r.l

def Register.set_af (r : Register) (v : Nat) : Register :=
  { r with a := (v >>> 8) % 256, f := (v &&& 0x00F0) % 256 }

def Register.set_bc (r : Register) (v : Nat) : Register :=
  { r with b := (v >>> 8) % 256, c := (v &&& 0x00FF) % 256 }

def Register.set_de (r : Register) (v : Nat) : Register :=
  { r with d := (v >>> 8) % 256, e := (v &&& 0x00FF) % 256 }

def Register.set_hl (r : Register) (v : Nat) : Register :=
  { r with h := (v >>> 8) % 256, l := (v &&& 0x00FF) % 256 }

/-- The flag bits of the F register, with their discriminant values from the
Rust enum Flag. -/
inductive Flag where
  | Z
  | N
  | H
  | C

/-- Flag as u8: the enum discriminant (the bit mask). -/
def Flag.og : Flag → Nat
  | Flag.Z => 0b10000000
  | Flag.N => 0b01000000
  | Flag.H => 0b00100000
  | Flag.C => 0b00010000

/-- Rust bitwise NOT on u8 is complement inside 8 bits: og XOR 0xFF. -/
def Flag.bw (fl : Flag) : Nat :=
  fl.og ^^^ 0xFF

def Register.get_flag (r : Register) (fl : Flag) : Bool :=
  (r.f &&& fl.og) != 0

def Register.set_flag (r : Register) (fl : Flag) (v : Bool) : Register :=
  if v then { r with f := r.f ||| fl.og }
  else { r with f := r.f &&& fl.bw }

def Register.power_up (term : Term) : Register :=
  let r := Register.default
  let r :=
    match term with
    | Term.GB => { r with a := 0x01 }
    | Term.GBP => { r with a := 0xff }
    | Term.GBC => { r with a := 0x11 }
    | Term.SGB => { r with a := 0x01 }
  { r with f := 0xb0, b := 0x00, c := 0x13, d := 0x00, e := 0xd8,
           h := 0x01, l := 0x4d, sp := 0xfffe, pc := 0x0100 }

/-- Well-formed register file: each u8 cell is below 256, each u16 cell is
below 65536. -/
def Register.Wf (r : Register) : Prop :=
  r.a < 256 ∧ r.f < 256 ∧ r.b < 256 ∧ r.c < 256 ∧ r.d < 256 ∧
  r.e < 256 ∧ r.h < 256 ∧ r.l < 256 ∧ r.sp < 65536 ∧ r.pc < 65536

/-! Arithmetic facts about the bit operations used by the accessors. -/

theorem and_byte_lt (x m : Nat) (hm : m < 256) : x &&& m < 256 :=
  Nat.lt_of_le_of_lt Nat.and_le_right hm

theorem lo_f0_mod (x : Nat) : (x &&& 0xF0) % 256 = x &&& 0xF0 :=
  Nat.mod_eq_of_lt (and_byte_lt x 0xF0 (by norm_num))

theorem lo_ff_mod (x : Nat) : (x &&& 0xFF) % 256 = x &&& 0xFF :=
  Nat.mod_eq_of_lt (and_byte_lt x 0xFF (by norm_num))

theorem hi_byte_mod (x : Nat) (hx : x < 65536) : (x >>> 8) % 256 = x >>> 8 := by
  apply Nat.mod_eq_of_lt
  rw [Nat.shiftRight_eq_div_pow]
  omega

/-- Reassembling the high byte and the full low byte gives back the number. -/
theorem or_split_ff (x : Nat) : ((x >>> 8) <<< 8) ||| (x &&& 0xFF) = x := by
  apply Nat.eq_of_testBit_eq
  intro i
  simp only [Nat.testBit_or, Nat.testBit_and, Nat.testBit_shiftLeft,
    Nat.testBit_shiftRight]
  rcases Nat.lt_or_ge i 8 with h8 | h8
  · have hd : decide (i ≥ 8) = false := by simp; omega
    have hc : Nat.testBit 0xFF i = true := by interval_cases i <;> decide
    simp [hd, hc]
  · have hd : decide (i ≥ 8) = true := by simp [h8]
    have heq : 8 + (i - 8) = i := by omega
    have hc : Nat.testBit 0xFF i = false := by
      apply Nat.testBit_lt_two_pow
      calc (0xFF : Nat) < 2 ^ 8 := by norm_num
        _ ≤ 2 ^ i := Nat.pow_le_pow_right (by norm_num) h8
    simp [hd, heq, hc]

/-- Reassembling the high byte and the low byte masked to its upper nibble is
the same as masking the 16-bit value with 0xFFF0. -/
theorem or_split_f0 (x : Nat) (hx : x < 65536) :
    ((x >>> 8) <<< 8) ||| (x &&& 0xF0) = x &&& 0xFFF0 := by
  apply Nat.eq_of_testBit_eq
  intro i
  simp only [Nat.testBit_or, Nat.testBit_and, Nat.testBit_shiftLeft,
    Nat.testBit_shiftRight]
  rcases Nat.lt_or_ge i 8 with h8 | h8
  · have hd : decide (i ≥ 8) = false := by simp; omega
    have hc : Nat.testBit 0xF0 i = Nat.testBit 0xFFF0 i := by
      interval_cases i <;> decide
    simp [hd, ← hc]
  · rcases Nat.lt_or_ge i 16 with h16 | h16
    · have hd : decide (i ≥ 8) = true := by simp [h8]
      have heq : 8 + (i - 8) = i := by omega
      have hc : Nat.testBit 0xF0 i = false := by interval_cases i <;> decide
      have hc2 : Nat.testBit 0xFFF0 i = true := by interval_cases i <;> decide
      simp [hd, heq, hc, hc2]
    · have hxi : Nat.testBit x i = false := by
        apply Nat.testBit_lt_two_pow
        calc x < 65536 := hx
          _ = 2 ^ 16 := by norm_num
          _ ≤ 2 ^ i := Nat.pow_le_pow_right (by norm_num) h16
      have heq : 8 + (i - 8) = i := by omega
      simp [heq, hxi]

/-- Claim C1: power_up returns exactly the documented register table, with only
register a depending on the hardware variant (GB 0x01, GBP 0xFF, GBC 0x11,
SGB 0x01) and every other field identical across variants. -/
theorem C1_power_up_table (t : Term) :
    (Register.power_up t).a =
      (match t with
        | Term.GB => 0x01
        | Term.GBP => 0xFF
        | Term.GBC => 0x11
        | Term.SGB => 0x01) ∧
    (Register.power_up t).f = 0xB0 ∧
    (Register.power_up t).b = 0x00 ∧
    (Register.power_up t).c = 0x13 ∧
    (Register.power_up t).d = 0x00 ∧
    (Register.power_up t).e = 0xD8 ∧
    (Register.power_up t).h = 0x01 ∧
    (Register.power_up t).l = 0x4D ∧
    (Register.power_up t).sp = 0xFFFE ∧
    (Register.power_up t).pc = 0x0100 := by
  cases t <;> exact ⟨rfl, rfl, rfl, rfl, rfl, rfl, rfl, rfl, rfl, rfl⟩

/-- Claim C2: writing any 16-bit value x through set_af and reading back
through get_af yields x masked with 0xFFF0, so the low nibble of the observed
low byte is always zero. -/
theorem C2_af_roundtrip_masks (r : Register) (x : Nat) (hx : x < 65536) :
    (r.set_af x).get_af = x &&& 0xFFF0 ∧ (r.set_af x).get_af &&& 0x0F = 0 := by
  have hmain : (r.set_af x).get_af = x &&& 0xFFF0 := by
    show (((x >>> 8) % 256) <<< 8) ||| ((x &&& 0x00F0) % 256) = x &&& 0xFFF0
    rw [hi_byte_mod x hx, lo_f0_mod x]
    exact or_split_f0 x hx
  have hz : (0xFFF0 : Nat) &&& 0x0F = 0 := by decide
  refine ⟨hmain, ?_⟩
  rw [hmain, Nat.and_assoc, hz, Nat.and_zero]

theorem C2_af_roundtrip_masks_witness :
    (0x1234 : Nat) < 65536 ∧
      (((Register.power_up Term.GB).set_af 0x1234).get_af = 0x1234 &&& 0xFFF0 ∧
        ((Register.power_up Term.GB).set_af 0x1234).get_af &&& 0x0F = 0) :=
  ⟨by decide, C2_af_roundtrip_masks (Register.power_up Term.GB) 0x1234 (by decide)⟩

/-- Claim C3: for every 16-bit value x, set then get on the BC, DE and HL
pairs returns x exactly, a full round-trip with no bit loss. -/
theorem C3_bc_de_hl_roundtrip (r : Register) (x : Nat) (hx : x < 65536) :
    (r.set_bc x).get_bc = x ∧ (r.set_de x).get_de = x ∧ (r.set_hl x).get_hl = x := by
  refine ⟨?_, ?_, ?_⟩
  · show (((x >>> 8) % 256) <<< 8) ||| ((x &&& 0x00FF) % 256) = x
    rw [hi_byte_mod x hx, lo_ff_mod x]
    exact or_split_ff x
  · show (((x >>> 8) % 256) <<< 8) ||| ((x &&& 0x00FF) % 256) = x
    rw [hi_byte_mod x hx, lo_ff_mod x]
    exact or_split_ff x
  · show (((x >>> 8) % 256) <<< 8) ||| ((x &&& 0x00FF) % 256) = x
    rw [hi_byte_mod x hx, lo_ff_mod x]
    exact or_split_ff x

theorem C3_bc_de_hl_roundtrip_witness :
    (0xABCD : Nat) < 65536 ∧
      (((Register.power_up Term.GB).set_bc 0xABCD).get_bc = 0xABCD ∧
        ((Register.power_up Term.GB).set_de 0xABCD).get_de = 0xABCD ∧
        ((Register.power_up Term.GB).set_hl 0xABCD).get_hl = 0xABCD) :=
  ⟨by decide, C3_bc_de_hl_roundtrip (Register.power_up Term.GB) 0xABCD (by decide)⟩

/-- Claim C4: every pair setter stores the high cell as v right-shifted by 8,
and stores the low cell with a pair-specific mask: set_af masks with 0x00F0,
while set_bc, set_de and set_hl mask with 0x00FF. -/
theorem C4_setter_cells (r : Register) (v : Nat) (hv : v < 65536) :
    (r.set_af v).a = v >>> 8 ∧
    (r.set_bc v).b = v >>> 8 ∧
    (r.set_de v).d = v >>> 8 ∧
    (r.set_hl v).h = v >>> 8 ∧
    (r.set_af v).f = v &&& 0x00F0 ∧
    (r.set_bc v).c = v &&& 0x00FF ∧
    (r.set_de v).e = v &&& 0x00FF ∧
    (r.set_hl v).l = v &&& 0x00FF :=
  ⟨hi_byte_mod v hv, hi_byte_mod v hv, hi_byte_mod v hv, hi_byte_mod v hv,
    lo_f0_mod v, lo_ff_mod v, lo_ff_mod v, lo_ff_mod v⟩

theorem C4_setter_cells_witness :
    (0xBEEF : Nat) < 65536 ∧
      (((Register.power_up Term.GB).set_af 0xBEEF).a = 0xBEEF >>> 8 ∧
        ((Register.power_up Term.GB).set_bc 0xBEEF).b = 0xBEEF >>> 8 ∧
        ((Register.power_up Term.GB).set_de 0xBEEF).d = 0xBEEF >>> 8 ∧
        ((Register.power_up Term.GB).set_hl 0xBEEF).h = 0xBEEF >>> 8 ∧
        ((Register.power_up Term.GB).set_af 0xBEEF).f = 0xBEEF &&& 0x00F0 ∧
        ((Register.power_up Term.GB).set_bc 0xBEEF).c = 0xBEEF &&& 0x00FF ∧
        ((Register.power_up Term.GB).set_de 0xBEEF).e = 0xBEEF &&& 0x00FF ∧
        ((Register.power_up Term.GB).set_hl 0xBEEF).l = 0xBEEF &&& 0x00FF) :=
  ⟨by decide, C4_setter_cells (Register.power_up Term.GB) 0xBEEF (by decide)⟩

/-- The bit index inside F of each flag: bit 7 = Z, bit 6 = N, bit 5 = H,
bit 4 = C. -/
def Flag.bit : Flag → Nat
  | Flag.Z => 7
  | Flag.N => 6
  | Flag.H => 5
  | Flag.C => 4

theorem og_two_pow (g : Flag) : g.og = 2 ^ g.bit := by
  cases g <;> decide

theorem flag_bit_lt (g : Flag) : g.bit < 8 := by
  cases g <;> decide

theorem og_lt (g : Flag) : g.og < 256 := by
  cases g <;> decide

theorem flag_bit_inj (g1 g2 : Flag) (hne : g1 ≠ g2) : g1.bit ≠ g2.bit := by
  cases g1 <;> cases g2 <;> first
    | exact absurd rfl hne
    | decide

theorem testBit_or_two_pow (f b j : Nat) :
    Nat.testBit (f ||| 2 ^ b) j = (Nat.testBit f j || decide (b = j)) := by
  rw [Nat.testBit_or, Nat.testBit_two_pow]

theorem testBit_and_compl (f b j : Nat) (hf : f < 256) (hb : b < 8) :
    Nat.testBit (f &&& (2 ^ b ^^^ 0xFF)) j = (Nat.testBit f j && !(decide (b = j))) := by
  rw [Nat.testBit_and, Nat.testBit_xor, Nat.testBit_two_pow]
  rcases Nat.lt_or_ge j 8 with hj | hj
  · have hff : Nat.testBit 0xFF j = true := by interval_cases j <;> decide
    rw [hff, Bool.xor_true]
  · have hfj : Nat.testBit f j = false := by
      apply Nat.testBit_lt_two_pow
      calc f < 256 := hf
        _ = 2 ^ 8 := by norm_num
        _ ≤ 2 ^ j := Nat.pow_le_pow_right (by norm_num) hj
    rw [hfj]
    simp

theorem and_two_pow_bne (x b : Nat) : (x &&& 2 ^ b != 0) = Nat.testBit x b := by
  cases hx : Nat.testBit x b
  · have h0 : x &&& 2 ^ b = 0 := by
      apply Nat.zero_of_testBit_eq_false
      intro i
      rw [Nat.testBit_and, Nat.testBit_two_pow]
      by_cases hib : b = i
      · subst hib
        simp [hx]
      · simp [hib]
    rw [h0]
    rfl
  · have h1 : Nat.testBit (x &&& 2 ^ b) b = true := by
      rw [Nat.testBit_and, Nat.testBit_two_pow]
      simp [hx]
    have hne : x &&& 2 ^ b ≠ 0 := by
      intro h0
      rw [h0] at h1
      simp at h1
    simp [hne]

theorem mod256_lt (x : Nat) : x % 256 < 256 :=
  Nat.mod_lt x (by norm_num)

theorem or_byte_lt (x y : Nat) (hx : x < 256) (hy : y < 256) : x ||| y < 256 := by
  have e : (2 : Nat) ^ 8 = 256 := by norm_num
  rw [← e] at hx hy ⊢
  exact Nat.or_lt_two_pow hx hy

theorem pair_lt (x y : Nat) (hx : x < 256) (hy : y < 256) :
    (x <<< 8) ||| y < 65536 := by
  have e : (2 : Nat) ^ 16 = 65536 := by norm_num
  rw [← e]
  apply Nat.or_lt_two_pow
  · rw [Nat.shiftLeft_eq]
    norm_num
    omega
  · exact lt_of_lt_of_le hy (by norm_num)

theorem and_or_right (a b c : Nat) : (a ||| b) &&& c = (a &&& c) ||| (b &&& c) := by
  apply Nat.eq_of_testBit_eq
  intro i
  simp [Bool.and_or_distrib_right]

instance (r : Register) : Decidable r.Wf := by
  unfold Register.Wf
  infer_instance

/-- States reachable from some power_up state by the mutating operations of
the interface, with arbitrary arguments. -/
inductive Reached : Register → Prop where
  | boot (t : Term) : Reached (Register.power_up t)
  | step_af (r : Register) (x : Nat) (hr : Reached r) : Reached (r.set_af x)
  | step_bc (r : Register) (x : Nat) (hr : Reached r) : Reached (r.set_bc x)
  | step_de (r : Register) (x : Nat) (hr : Reached r) : Reached (r.set_de x)
  | step_hl (r : Register) (x : Nat) (hr : Reached r) : Reached (r.set_hl x)
  | step_flag (r : Register) (g : Flag) (v : Bool) (hr : Reached r) :
      Reached (r.set_flag g v)

theorem f0_and_0f : (0xF0 : Nat) &&& 0x0F = 0 := by decide

/-- Claim C5: in every state reachable from power_up by any sequence of
set_af, set_bc, set_de, set_hl and set_flag with any arguments, the low
nibble (bits 3-0) of the f field is zero. -/
theorem C5_f_low_nibble_zero (r : Register) (hr : Reached r) :
    r.f &&& 0x0F = 0 := by
  induction hr with
  | boot t => cases t <;> decide
  | step_af r x hr ih =>
    show ((x &&& 0x00F0) % 256) &&& 0x0F = 0
    rw [lo_f0_mod x, Nat.and_assoc, f0_and_0f, Nat.and_zero]
  | step_bc r x hr ih => exact ih
  | step_de r x hr ih => exact ih
  | step_hl r x hr ih => exact ih
  | step_flag r g v hr ih =>
    cases v
    · show (r.f &&& (g.og ^^^ 0xFF)) &&& 0x0F = 0
      rw [Nat.and_assoc]
      have hg : (g.og ^^^ 0xFF) &&& 0x0F = 0x0F := by cases g <;> decide
      rw [hg]
      exact ih
    · show (r.f ||| g.og) &&& 0x0F = 0
      rw [and_or_right]
      have hg : g.og &&& 0x0F = 0 := by cases g <;> decide
      rw [hg, ih]
      rfl

theorem C5_f_low_nibble_zero_witness :
    Reached (((Register.power_up Term.GB).set_flag Flag.C true).set_bc 0xABCD) ∧
      ((((Register.power_up Term.GB).set_flag Flag.C true).set_bc 0xABCD).f
        &&& 0x0F = 0) :=
  ⟨Reached.step_bc _ 0xABCD (Reached.step_flag _ Flag.C true (Reached.boot Term.GB)),
    C5_f_low_nibble_zero _
      (Reached.step_bc _ 0xABCD
        (Reached.step_flag _ Flag.C true (Reached.boot Term.GB)))⟩

/-- Claim C6: set_flag writes exactly the addressed flag bit (set on true,
cleared on false), leaves every other bit of f unchanged, and in consequence
reading any distinct flag is unaffected. -/
theorem C6_set_flag_frame (r : Register) (hf : r.f < 256) (g : Flag) (v : Bool) :
    Nat.testBit (r.set_flag g v).f g.bit = v ∧
    (∀ j : Nat, j ≠ g.bit →
      Nat.testBit (r.set_flag g v).f j = Nat.testBit r.f j) ∧
    (∀ g2 : Flag, g2 ≠ g →
      (r.set_flag g v).get_flag g2 = r.get_flag g2) := by
  refine ⟨?_, ?_, ?_⟩
  · cases v
    · show Nat.testBit (r.f &&& (g.og ^^^ 0xFF)) g.bit = false
      rw [og_two_pow g, testBit_and_compl r.f g.bit g.bit hf (flag_bit_lt g)]
      simp
    · show Nat.testBit (r.f ||| g.og) g.bit = true
      rw [og_two_pow g, testBit_or_two_pow]
      simp
  · intro j hj
    cases v
    · show Nat.testBit (r.f &&& (g.og ^^^ 0xFF)) j = Nat.testBit r.f j
      rw [og_two_pow g, testBit_and_compl r.f g.bit j hf (flag_bit_lt g),
        decide_eq_false (Ne.symm hj)]
      simp
    · show Nat.testBit (r.f ||| g.og) j = Nat.testBit r.f j
      rw [og_two_pow g, testBit_or_two_pow, decide_eq_false (Ne.symm hj)]
      simp
  · intro g2 hne
    cases v
    · show ((r.f &&& (g.og ^^^ 0xFF)) &&& g2.og != 0) = ((r.f &&& g2.og) != 0)
      rw [og_two_pow g, og_two_pow g2, and_two_pow_bne, and_two_pow_bne,
        testBit_and_compl r.f g.bit g2.bit hf (flag_bit_lt g),
        decide_eq_false (flag_bit_inj g g2 (Ne.symm hne))]
      simp
    · show ((r.f ||| g.og) &&& g2.og != 0) = ((r.f &&& g2.og) != 0)
      rw [og_two_pow g, og_two_pow g2, and_two_pow_bne, and_two_pow_bne,
        testBit_or_two_pow, decide_eq_false (flag_bit_inj g g2 (Ne.symm hne))]
      simp

theorem C6_set_flag_frame_witness :
    (Register.power_up Term.GB).f < 256 ∧
      (Nat.testBit ((Register.power_up Term.GB).set_flag Flag.N true).f
          Flag.N.bit = true ∧
        (∀ j : Nat, j ≠ Flag.N.bit →
          Nat.testBit ((Register.power_up Term.GB).set_flag Flag.N true).f j =
            Nat.testBit (Register.power_up Term.GB).f j) ∧
        (∀ g2 : Flag, g2 ≠ Flag.N →
          ((Register.power_up Term.GB).set_flag Flag.N true).get_flag g2 =
            (Register.power_up Term.GB).get_flag g2)) :=
  ⟨by decide, C6_set_flag_frame (Register.power_up Term.GB) (by decide) Flag.N true⟩

/-- Claim C7: get_flag tests exactly the documented mask bit of f (Z 0x80,
N 0x40, H 0x20, C 0x10), and reading a flag right after setting it returns
the value just written. -/
theorem C7_get_flag_masks (r : Register) (hf : r.f < 256) :
    r.get_flag Flag.Z = (r.f &&& 0x80 != 0) ∧
    r.get_flag Flag.N = (r.f &&& 0x40 != 0) ∧
    r.get_flag Flag.H = (r.f &&& 0x20 != 0) ∧
    r.get_flag Flag.C = (r.f &&& 0x10 != 0) ∧
    (∀ g : Flag, ∀ v : Bool, (r.set_flag g v).get_flag g = v) := by
  refine ⟨rfl, rfl, rfl, rfl, ?_⟩
  intro g v
  cases v
  · show ((r.f &&& (g.og ^^^ 0xFF)) &&& g.og != 0) = false
    rw [og_two_pow g, and_two_pow_bne,
      testBit_and_compl r.f g.bit g.bit hf (flag_bit_lt g)]
    simp
  · show ((r.f ||| g.og) &&& g.og != 0) = true
    rw [og_two_pow g, and_two_pow_bne, testBit_or_two_pow]
    simp

theorem C7_get_flag_masks_witness :
    (Register.power_up Term.GB).f < 256 ∧
      ((Register.power_up Term.GB).get_flag Flag.Z =
          ((Register.power_up Term.GB).f &&& 0x80 != 0) ∧
        (Register.power_up Term.GB).get_flag Flag.N =
          ((Register.power_up Term.GB).f &&& 0x40 != 0) ∧
        (Register.power_up Term.GB).get_flag Flag.H =
          ((Register.power_up Term.GB).f &&& 0x20 != 0) ∧
        (Register.power_up Term.GB).get_flag Flag.C =
          ((Register.power_up Term.GB).f &&& 0x10 != 0) ∧
        (∀ g : Flag, ∀ v : Bool,
          ((Register.power_up Term.GB).set_flag g v).get_flag g = v)) :=
  ⟨by decide, C7_get_flag_masks (Register.power_up Term.GB) (by decide)⟩

/-- Claim C8: every operation of the interface is total and closed over the
represented machine domains: on a well-formed state, every setter with any
input yields a well-formed state (wide inputs are truncated by masking, never
rejected), set_flag and power_up yield well-formed states for every flag,
boolean and variant, and every pair getter returns a 16-bit value. -/
theorem C8_totality (r : Register) (hr : r.Wf) :
    (∀ x : Nat, (r.set_af x).Wf ∧ (r.set_bc x).Wf ∧ (r.set_de x).Wf ∧
      (r.set_hl x).Wf) ∧
    (∀ g : Flag, ∀ v : Bool, (r.set_flag g v).Wf) ∧
    (∀ t : Term, (Register.power_up t).Wf) ∧
    r.get_af < 65536 ∧ r.get_bc < 65536 ∧ r.get_de < 65536 ∧
    r.get_hl < 65536 := by
  obtain ⟨ha, hf, hb, hc, hd, he, hh, hl, hsp, hpc⟩ := hr
  refine ⟨?_, ?_, ?_, ?_, ?_, ?_, ?_⟩
  · intro x
    exact ⟨⟨mod256_lt _, mod256_lt _, hb, hc, hd, he, hh, hl, hsp, hpc⟩,
      ⟨ha, hf, mod256_lt _, mod256_lt _, hd, he, hh, hl, hsp, hpc⟩,
      ⟨ha, hf, hb, hc, mod256_lt _, mod256_lt _, hh, hl, hsp, hpc⟩,
      ⟨ha, hf, hb, hc, hd, he, mod256_lt _, mod256_lt _, hsp, hpc⟩⟩
  · intro g v
    cases v
    · exact ⟨ha, Nat.lt_of_le_of_lt Nat.and_le_left hf, hb, hc, hd, he, hh,
        hl, hsp, hpc⟩
    · exact ⟨ha, or_byte_lt r.f g.og hf (og_lt g), hb, hc, hd, he, hh, hl,
        hsp, hpc⟩
  · intro t
    cases t <;> decide
  · exact pair_lt r.a r.f ha hf
  · exact pair_lt r.b r.c hb hc
  · exact pair_lt r.d r.e hd he
  · exact pair_lt r.h r.l hh hl

theorem C8_totality_witness :
    (Register.power_up Term.GB).Wf ∧
      ((∀ x : Nat, ((Register.power_up Term.GB).set_af x).Wf ∧
          ((Register.power_up Term.GB).set_bc x).Wf ∧
          ((Register.power_up Term.GB).set_de x).Wf ∧
          ((Register.power_up Term.GB).set_hl x).Wf) ∧
        (∀ g : Flag, ∀ v : Bool,
          ((Register.power_up Term.GB).set_flag g v).Wf) ∧
        (∀ t : Term, (Register.power_up t).Wf) ∧
        (Register.power_up Term.GB).get_af < 65536 ∧
        (Register.power_up Term.GB).get_bc < 65536 ∧
        (Register.power_up Term.GB).get_de < 65536 ∧
        (Register.power_up Term.GB).get_hl < 65536) :=
  ⟨by decide, C8_totality (Register.power_up Term.GB) (by decide)⟩

/-- Claim C9: each pair setter touches only the two cells of its own pair and
set_flag touches only f; every other field is returned unchanged. -/
theorem C9_frame (r : Register) (x : Nat) (g : Flag) (v : Bool) :
    ((r.set_af x).b = r.b ∧ (r.set_af x).c = r.c ∧ (r.set_af x).d = r.d ∧
      (r.set_af x).e = r.e ∧ (r.set_af x).h = r.h ∧ (r.set_af x).l = r.l ∧
      (r.set_af x).sp = r.sp ∧ (r.set_af x).pc = r.pc) ∧
    ((r.set_bc x).a = r.a ∧ (r.set_bc x).f = r.f ∧ (r.set_bc x).d = r.d ∧
      (r.set_bc x).e = r.e ∧ (r.set_bc x).h = r.h ∧ (r.set_bc x).l = r.l ∧
      (r.set_bc x).sp = r.sp ∧ (r.set_bc x).pc = r.pc) ∧
    ((r.set_de x).a = r.a ∧ (r.set_de x).f = r.f ∧ (r.set_de x).b = r.b ∧
      (r.set_de x).c = r.c ∧ (r.set_de x).h = r.h ∧ (r.set_de x).l = r.l ∧
      (r.set_de x).sp = r.sp ∧ (r.set_de x).pc = r.pc) ∧
    ((r.set_hl x).a = r.a ∧ (r.set_hl x).f = r.f ∧ (r.set_hl x).b = r.b ∧
      (r.set_hl x).c = r.c ∧ (r.set_hl x).d = r.d ∧ (r.set_hl x).e = r.e ∧
      (r.set_hl x).sp = r.sp ∧ (r.set_hl x).pc = r.pc) ∧
    ((r.set_flag g v).a = r.a ∧ (r.set_flag g v).b = r.b ∧
      (r.set_flag g v).c = r.c ∧ (r.set_flag g v).d = r.d ∧
      (r.set_flag g v).e = r.e ∧ (r.set_flag g v).h = r.h ∧
      (r.set_flag g v).l = r.l ∧ (r.set_flag g v).sp = r.sp ∧
      (r.set_flag g v).pc = r.pc) := by
  cases v <;>
    exact ⟨⟨rfl, rfl, rfl, rfl, rfl, rfl, rfl, rfl⟩,
      ⟨rfl, rfl, rfl, rfl, rfl, rfl, rfl, rfl⟩,
      ⟨rfl, rfl, rfl, rfl, rfl, rfl, rfl, rfl⟩,
      ⟨rfl, rfl, rfl, rfl, rfl, rfl, rfl, rfl⟩,
      ⟨rfl, rfl, rfl, rfl, rfl, rfl, rfl, rfl, rfl⟩⟩

/-- Memberwise copy, as produced by Rust derive(Clone) for a struct of plain
integer fields. -/
def Register.clone (r : Register) : Register :=
  { a := r.a, f := r.f, b := r.b, c := r.c, d := r.d, e := r.e,
    h := r.h, l := r.l, sp := r.sp, pc := r.pc }

/-- Direct assignment of a u8 value into the a field (Rust r.a = x). -/
def Register.set_a (r : Register) (x : Nat) : Register :=
  { r with a := x % 256 }

/-- A save-state scenario: the original register file and its duplicate held
side by side, so that mutation of either one is an operation on this pair. -/
structure Snapshot where
  original : Register
  duplicate : Register

def snapshot (r : Register) : Snapshot :=
  { original := r, duplicate := r.clone }

def Snapshot.mutate_dup_a (s : Snapshot) (x : Nat) : Snapshot :=
  { s with duplicate := s.duplicate.set_a x }

def Snapshot.mutate_orig_a (s : Snapshot) (x : Nat) : Snapshot :=
  { s with original := s.original.set_a x }

/-- Claim C10: a duplicate is fully independent of its source: mutating the
duplicate of a snapshot leaves the original register file (in particular its
a field) unchanged, and mutating the original leaves the duplicate holding
the copied values. -/
theorem C10_clone_independent (r : Register) (x : Nat) :
    ((snapshot r).mutate_dup_a x).original = r ∧
    ((snapshot r).mutate_dup_a x).original.a = r.a ∧
    ((snapshot r).mutate_orig_a x).duplicate = r.clone ∧
    ((snapshot r).mutate_orig_a x).duplicate.a = r.a :=
  ⟨rfl, rfl, rfl, rfl⟩

end Gameboy
